import Mathlib

/-!
Verification development for the mai-shen-yun inventory-intelligence core.

Shallow embedding of the pipeline in `src/predictions.py`,
`src/alert_intelligence.py`, `src/data_processor.py` and the consumption
calculator in `pages/6_Intelligent_Alerts.py`.

Modelling conventions, used throughout:

* Python floats are modelled as exact rationals (`ℚ`).  All arithmetic the
  claims quantify over is +, -, *, /, comparisons; no claim depends on
  floating-point rounding.
* A pandas `Series` of numbers is a `List ℚ`; a `DataFrame` is a list of
  row records (one structure per frame shape).
* `pandas.Series.mean()` is `sum / length`.  On an empty series pandas
  produces `NaN`; the embedding's `mean [] = 0` (division by zero in `ℚ`).
  Every theorem that touches a mean keeps the relevant list nonempty, except
  where a claim is refuted purely by the *length* of a result, which is
  independent of the value filled in.
* Code that can raise (`.iloc[-1]` on an empty series) is embedded with
  `Option`: `none` means the Python code raises.
* `numpy.sqrt` / `numpy.std` produce irrational reals; the embedding takes
  the square-root function as an explicit parameter `sqrtQ : ℚ → ℚ` and all
  theorems hold for every choice of `sqrtQ`.
* `datetime.now()` is modelled by a `Nat` parameter `now`, the wall-clock
  reading at the start of the run; it is stored in the `timestamp` field of
  each alert exactly where the source stores `datetime.now()`.
* Human-readable `message` / `action` strings interpolate numbers with
  `"{:.1f}"` formatting; they are pure functions of the numeric fields kept
  in the embedding and are omitted (titles, which are plain concatenations,
  are kept).
-/

namespace MaiShenYun

/-! ## predictions.py — `InventoryPredictor` -/

/-- `pandas.Series.mean()`: sum divided by length (NaN on empty in pandas,
`0` here by the `ℚ` division convention; see module conventions). -/
def mean (xs : List ℚ) : ℚ := xs.sum / xs.length

/-- `InventoryPredictor.moving_average_forecast(data, window=3, periods=30)`.
If `len(data) < window` it returns `[data.mean()] * periods`; otherwise it
takes `data.rolling(window=window).mean().iloc[-1]` — the mean of the last
`window` points — and repeats it `periods` times.  `.iloc[-1]` raises on an
empty series (reachable only via `window = 0` on empty data, which happens
through `weighted_moving_average`'s fallback): embedded as `none`. -/
def moving_average_forecast (data : List ℚ) (window : Nat := 3)
    (periods : Nat := 30) : Option (List ℚ) :=
  if data.length < window then
    some (List.replicate periods (mean data))
  else if data.isEmpty then
    none
  else
    some (List.replicate periods (mean (data.drop (data.length - window))))

/-- The default weights `[0.5, 0.3, 0.2]` of `weighted_moving_average`. -/
def defaultWeights : List ℚ := [1/2, 3/10, 1/5]

/-- `InventoryPredictor.weighted_moving_average(data, weights, periods)`.
When `len(data) < len(weights)` it falls back to
`moving_average_forecast(data, window=len(data), periods)`.  Otherwise
`recent_data = data.iloc[-len(weights):]` and
`wma = sum(recent_data.iloc[i] * weights[i] for i in range(len(weights)))`:
`weights[i]` multiplies `recent_data.iloc[i]`, i.e. `weights[0]` multiplies
the *oldest* point of the window (`data.iloc[-len(weights)]`). -/
def weighted_moving_average (data : List ℚ)
    (weights : List ℚ := defaultWeights) (periods : Nat := 30) :
    Option (List ℚ) :=
  if data.length < weights.length then
    moving_average_forecast data data.length periods
  else
    let recent := data.drop (data.length - weights.length)
    let wma := ((recent.zip weights).map (fun p => p.1 * p.2)).sum
    some (List.replicate periods wma)

/-- The recursion of `exponential_smoothing`: starting from `smoothed[0] =
data.iloc[0]`, each step appends `alpha * x + (1 - alpha) * smoothed[-1]`;
this function returns the final element `smoothed[-1]`. -/
def smoothedLast (alpha : ℚ) : ℚ → List ℚ → ℚ
  | s, [] => s
  | s, x :: xs => smoothedLast alpha (alpha * x + (1 - alpha) * s) xs

/-- `InventoryPredictor.exponential_smoothing(data, alpha=0.3, periods=30)`:
fewer than 2 points → `[data.mean()] * periods`; otherwise the last smoothed
value repeated `periods` times. -/
def exponential_smoothing (data : List ℚ) (alpha : ℚ := 3/10)
    (periods : Nat := 30) : List ℚ :=
  if data.length < 2 then
    List.replicate periods (mean data)
  else
    match data with
    | [] => List.replicate periods (mean data)
    | x :: xs => List.replicate periods (smoothedLast alpha x xs)

/-- `InventoryPredictor.linear_regression_forecast(data, periods=30)`:
fewer than 3 points → constant-mean forecast; otherwise ordinary least
squares of value against index `0..len(data)-1` (what
`sklearn.LinearRegression` computes), extrapolated to indices
`len(data)..len(data)+periods-1` and clamped at 0
(`np.maximum(forecast, 0)`). -/
def linear_regression_forecast (data : List ℚ) (periods : Nat := 30) :
    List ℚ :=
  if data.length < 3 then
    List.replicate periods (mean data)
  else
    let xs : List ℚ := (List.range data.length).map (fun i => (i : ℚ))
    let xbar := mean xs
    let ybar := mean data
    let sxx := (xs.map (fun x => (x - xbar) ^ 2)).sum
    let sxy := ((xs.zip data).map (fun p => (p.1 - xbar) * (p.2 - ybar))).sum
    let slope := sxy / sxx
    let intercept := ybar - slope * xbar
    (List.range periods).map
      (fun i => max (intercept + slope * ((data.length : ℚ) + (i : ℚ))) 0)

/-- The dictionary returned by `ensemble_forecast`, keys in insertion
order: `moving_average`, `exponential_smoothing`, `weighted_ma`,
`linear_regression`, `ensemble`. -/
structure EnsembleResult where
  moving_average : List ℚ
  exponential_smoothing : List ℚ
  weighted_ma : List ℚ
  linear_regression : List ℚ
  ensemble : List ℚ
  deriving Repr, DecidableEq

/-- `InventoryPredictor.ensemble_forecast(data, periods=30)`: runs the four
component methods (the `try` only guards `linear_regression_forecast`, whose
embedding is total), collects `all_forecasts = [f.values for f in
forecasts.values()]` and sets `ensemble = np.mean(all_forecasts, axis=0)`,
the column-wise mean.  Exceptions from the first three methods propagate
(`Option` bind). -/
def ensemble_forecast (data : List ℚ) (periods : Nat := 30) :
    Option EnsembleResult := do
  let ma ← moving_average_forecast data 3 periods
  let es := exponential_smoothing data (3/10) periods
  let wma ← weighted_moving_average data defaultWeights periods
  let lr := linear_regression_forecast data periods
  let all_forecasts := [ma, es, wma, lr]
  let ensemble := (List.range periods).map
    (fun i => mean (all_forecasts.map (fun f => f.getD i 0)))
  pure ⟨ma, es, wma, lr, ensemble⟩

/-- The dictionary returned by `calculate_forecast_accuracy`.  `mape` is an
`Option`: `none` records that an element-wise division by zero happened
inside `np.abs((actual - forecast) / actual)` (pandas silently yields
`inf`/`NaN` there rather than raising; `none` marks the occurrence).
`rmse` uses the square-root parameter. -/
structure AccuracyResult where
  mae : ℚ
  mape : Option ℚ
  rmse : ℚ
  deriving Repr, DecidableEq

/-- Division that records a zero denominator. -/
def safeDiv (a b : ℚ) : Option ℚ := if b = 0 then none else some (a / b)

/-- Element-wise evaluation that fails as soon as one element fails (used
to record whether any division by zero happened inside a vectorised
pandas expression). -/
def optionMapList (f : α → Option β) : List α → Option (List β)
  | [] => some []
  | x :: xs =>
    match f x, optionMapList f xs with
    | some y, some ys => some (y :: ys)
    | _, _ => none

/-- `InventoryPredictor.calculate_forecast_accuracy(actual, forecast)`:
aligns both series on the prefix of length `min(len(actual),
len(forecast))`, then `mae = mean |a - f|`, `mape = mean |(a - f) / a| * 100`
when the aligned `actual.mean() > 0` else `0`, and
`rmse = sqrt(mean (a - f)^2)` (`sqrtQ` models `np.sqrt`). -/
def calculate_forecast_accuracy (sqrtQ : ℚ → ℚ)
    (actual forecast : List ℚ) : AccuracyResult :=
  let minLen := min actual.length forecast.length
  let a := actual.take minLen
  let f := forecast.take minLen
  let mae := mean ((a.zip f).map (fun p => |p.1 - p.2|))
  let mape :=
    if mean a > 0 then
      (optionMapList (fun p => (safeDiv (p.1 - p.2) p.1).map abs)
        (a.zip f)).map (fun terms => mean terms * 100)
    else some 0
  let rmse := sqrtQ (mean ((a.zip f).map (fun p => (p.1 - p.2) ^ 2)))
  ⟨mae, mape, rmse⟩

/-! ## alert_intelligence.py — `AlertIntelligence` -/

/-- Priority-level constant `AlertIntelligence.CRITICAL`. -/
def CRITICAL : String := "critical"

/-- Priority-level constant `AlertIntelligence.HIGH`. -/
def HIGH : String := "high"

/-- Priority-level constant `AlertIntelligence.MEDIUM`. -/
def MEDIUM : String := "medium"

/-- Priority-level constant `AlertIntelligence.LOW`. -/
def LOW : String := "low"

/-- Priority-level constant `AlertIntelligence.INFO`. -/
def INFO : String := "info"

/-- Category constant `AlertIntelligence.STOCKOUT`. -/
def STOCKOUT : String := "stockout_risk"

/-- Category constant `AlertIntelligence.OVERSTOCK`. -/
def OVERSTOCK : String := "overstock"

/-- Category constant `AlertIntelligence.CONSUMPTION_SPIKE`. -/
def CONSUMPTION_SPIKE : String := "consumption_spike"

/-- Category constant `AlertIntelligence.CONSUMPTION_DROP`. -/
def CONSUMPTION_DROP : String := "consumption_drop"

/-- Category constant `AlertIntelligence.REORDER_TIMING`. -/
def REORDER_TIMING : String := "reorder_timing"

/-- A row of the inventory `DataFrame` handed to the detectors (built in
`pages/6_Intelligent_Alerts.py` from the cleaned shipment table).  The
detectors read the fields with `row.get(...)`; every row of the actual
frame carries all of them, so they are plain fields here. -/
structure InvRow where
  ingredient : String
  current_stock : ℚ
  avg_daily_usage : ℚ
  lead_time_days : ℚ
  reorder_point : ℚ
  deriving Repr, DecidableEq

/-- An alert dictionary.  The union of the fields produced by the four
detectors; fields a detector does not set are `none`.  `timeframe` keeps
the matched timeframe in days (the source stores the formatted string
`f"{timeframe}-day forecast"`).  Derived `message`/`action` strings are
omitted (see module conventions); `title` is kept. -/
structure Alert where
  ingredient : String
  category : String
  priority : String
  title : String
  current_value : ℚ
  timeframe : Option Nat := none
  threshold : Option ℚ := none
  days_remaining : Option ℚ := none
  optimal_value : Option ℚ := none
  excess_amount : Option ℚ := none
  days_of_stock : Option ℚ := none
  average_value : Option ℚ := none
  z_score : Option ℚ := none
  reorder_point : Option ℚ := none
  lead_time : Option ℚ := none
  timestamp : Nat
  deriving Repr, DecidableEq

/-- The priority chosen inside `detect_stockout_risk`'s emission branch:
`days_remaining ≤ 1` → critical, `≤ 3` → critical, `≤ 7` → high,
otherwise medium. -/
def stockoutPriority (days_remaining : ℚ) : String :=
  if days_remaining ≤ 1 then CRITICAL
  else if days_remaining ≤ 3 then CRITICAL
  else if days_remaining ≤ 7 then HIGH
  else MEDIUM

/-- The inner `for timeframe in timeframes: if days_remaining <= timeframe:
... break` loop: the first timeframe in list order that `days_remaining`
is `≤` to, if any. -/
def firstMatchingTimeframe (days_remaining : ℚ) : List Nat → Option Nat
  | [] => none
  | t :: ts =>
    if days_remaining ≤ (t : ℚ) then some t
    else firstMatchingTimeframe days_remaining ts

/-- The body of `detect_stockout_risk`'s outer loop for one row: skip when
`avg_daily_usage ≤ 0`; otherwise emit one alert for the first matching
timeframe (the `break` makes at most one per row). -/
def stockoutRowAlert (timeframes : List Nat) (now : Nat) (row : InvRow) :
    Option Alert :=
  if row.avg_daily_usage ≤ 0 then none
  else
    let d := row.current_stock / row.avg_daily_usage
    (firstMatchingTimeframe d timeframes).map (fun t =>
      { ingredient := row.ingredient
        category := STOCKOUT
        priority := stockoutPriority d
        title := "Stock-out Risk: " ++ row.ingredient
        current_value := row.current_stock
        timeframe := some t
        threshold := some (row.avg_daily_usage * (t : ℚ))
        days_remaining := some d
        timestamp := now })

/-- `AlertIntelligence.detect_stockout_risk(inventory_df,
timeframes=[3,7,14])`: one pass over the rows, appending the per-row alert
when there is one (the `inventory_df.empty` early return is the `[]` case of
`filterMap`). -/
def detect_stockout_risk (inventory : List InvRow)
    (timeframes : List Nat := [3, 7, 14]) (now : Nat := 0) : List Alert :=
  inventory.filterMap (stockoutRowAlert timeframes now)

/-- The body of `detect_overstock`'s loop for one row: skip when
`avg_daily_usage ≤ 0`; emit when `days_of_stock > threshold_days`, with
`excess_stock = current_stock - daily_usage * 30` and priority high when
`days_of_stock > 90` else medium. -/
def overstockRowAlert (threshold_days : ℚ) (now : Nat) (row : InvRow) :
    Option Alert :=
  if row.avg_daily_usage ≤ 0 then none
  else
    let days_of_stock := row.current_stock / row.avg_daily_usage
    if days_of_stock > threshold_days then
      some { ingredient := row.ingredient
             category := OVERSTOCK
             priority := if days_of_stock > 90 then HIGH else MEDIUM
             title := "Overstock Alert: " ++ row.ingredient
             current_value := row.current_stock
             optimal_value := some (row.avg_daily_usage * 30)
             excess_amount := some (row.current_stock - row.avg_daily_usage * 30)
             days_of_stock := some days_of_stock
             timestamp := now }
    else none

/-- `AlertIntelligence.detect_overstock(inventory_df, threshold_days=60)`. -/
def detect_overstock (inventory : List InvRow) (threshold_days : ℚ := 60)
    (now : Nat := 0) : List Alert :=
  inventory.filterMap (overstockRowAlert threshold_days now)

/-- The body of `detect_optimal_reorder_timing`'s loop for one row:
`buffer_days = 3`, window `[lead_time + 3, lead_time + 3 + 7]`, emit a
medium alert when `days_remaining` lies inside it. -/
def reorderRowAlert (now : Nat) (row : InvRow) : Option Alert :=
  if row.avg_daily_usage ≤ 0 then none
  else
    let d := row.current_stock / row.avg_daily_usage
    if row.lead_time_days + 3 ≤ d ∧ d ≤ row.lead_time_days + 3 + 7 then
      some { ingredient := row.ingredient
             category := REORDER_TIMING
             priority := MEDIUM
             title := "Optimal Reorder Window: " ++ row.ingredient
             current_value := row.current_stock
             reorder_point := some row.reorder_point
             days_remaining := some d
             lead_time := some row.lead_time_days
             timestamp := now }
    else none

/-- `AlertIntelligence.detect_optimal_reorder_timing(inventory_df)`. -/
def detect_optimal_reorder_timing (inventory : List InvRow)
    (now : Nat := 0) : List Alert :=
  inventory.filterMap (reorderRowAlert now)

/-- The monthly consumption `DataFrame` handed to
`detect_consumption_anomalies`: a `month` column plus one numeric column
per ingredient, all of the frame's row count in length.  `months` is the
`month` column (so `len(consumption_df) = months.length` and
`consumption_df.empty ↔ months = []`); `cols` are the ingredient columns in
frame order (`[col for col in columns if col != 'month']`). -/
structure ConsumptionDF where
  months : List String
  cols : List (String × List ℚ)
  deriving Repr, DecidableEq

/-- Population variance, so that `np.std usage = sqrt (variance usage)`. -/
def variance (xs : List ℚ) : ℚ :=
  mean (xs.map (fun x => (x - mean xs) ^ 2))

/-- The body of `detect_consumption_anomalies`' per-column loop: skip when
the column has fewer than 3 points or `std == 0`; z-score the latest point;
`z > std_threshold` → spike (critical when `z > 3` else high);
`z < -std_threshold` → drop (medium, `z_score` stored as `abs(z_score)`).
`sqrtQ` models `np.sqrt` inside `np.std` (see module conventions). -/
def anomalyColAlert (sqrtQ : ℚ → ℚ) (std_threshold : ℚ) (now : Nat)
    (col : String × List ℚ) : Option Alert :=
  let usage := col.2
  if usage.length < 3 then none
  else
    let m := mean usage
    let std := sqrtQ (variance usage)
    if std = 0 then none
    else
      let latest := usage.getLastD 0
      let z := (latest - m) / std
      if z > std_threshold then
        some { ingredient := col.1
               category := CONSUMPTION_SPIKE
               priority := if z > 3 then CRITICAL else HIGH
               title := "Consumption Spike: " ++ col.1
               current_value := latest
               average_value := some m
               z_score := some z
               timestamp := now }
      else if z < -std_threshold then
        some { ingredient := col.1
               category := CONSUMPTION_DROP
               priority := MEDIUM
               title := "Consumption Drop: " ++ col.1
               current_value := latest
               average_value := some m
               z_score := some |z|
               timestamp := now }
      else none

/-- `AlertIntelligence.detect_consumption_anomalies(consumption_df,
std_threshold=2.0)`: the `empty or len < 3` guard, then one pass over the
ingredient columns. -/
def detect_consumption_anomalies (sqrtQ : ℚ → ℚ)
    (consumption : ConsumptionDF) (std_threshold : ℚ := 2)
    (now : Nat := 0) : List Alert :=
  if consumption.months.length < 3 then []
  else consumption.cols.filterMap (anomalyColAlert sqrtQ std_threshold now)

/-- The dictionary `priority_order = {critical: 0, high: 1, medium: 2,
low: 3, info: 4}` with `.get(priority, 999)`. -/
def priority_order (p : String) : Nat :=
  if p = CRITICAL then 0
  else if p = HIGH then 1
  else if p = MEDIUM then 2
  else if p = LOW then 3
  else if p = INFO then 4
  else 999

/-- The comparison used by `all_alerts.sort(key=lambda x:
priority_order.get(x['priority'], 999))`. -/
def alertLE (a b : Alert) : Prop :=
  priority_order a.priority ≤ priority_order b.priority

instance : DecidableRel alertLE := fun _ _ =>
  inferInstanceAs (Decidable (_ ≤ _))

instance : IsTotal Alert alertLE := ⟨fun _ _ => le_total _ _⟩

instance : IsTrans Alert alertLE := ⟨fun _ _ _ => le_trans⟩

/-- Python's `list.sort(key=...)` is a stable sort by the key; any stable
sort by the same key yields the same list, so it is modelled by Mathlib's
stable insertion sort on `alertLE`. -/
def sortAlerts (l : List Alert) : List Alert := List.insertionSort alertLE l

/-- The concatenation `all_alerts` built inside `generate_all_alerts`
before sorting: stockout pass (default timeframes `[3,7,14]`), overstock
pass (default threshold 60), optimal-reorder pass, then the anomaly pass
when a consumption frame was supplied and is not empty. -/
def all_alerts_concat (sqrtQ : ℚ → ℚ) (inventory : List InvRow)
    (consumption : Option ConsumptionDF) (now : Nat) : List Alert :=
  detect_stockout_risk inventory [3, 7, 14] now
    ++ detect_overstock inventory 60 now
    ++ detect_optimal_reorder_timing inventory now
    ++ (match consumption with
        | some c => if c.months.isEmpty then [] else
            detect_consumption_anomalies sqrtQ c 2 now
        | none => [])

/-- `AlertIntelligence.generate_all_alerts(inventory_df, consumption_df)`:
run the four detector passes and sort the concatenation stably by priority
rank. -/
def generate_all_alerts (sqrtQ : ℚ → ℚ) (inventory : List InvRow)
    (consumption : Option ConsumptionDF) (now : Nat) : List Alert :=
  sortAlerts (all_alerts_concat sqrtQ inventory consumption now)

/-! ## data_processor.py — `DataProcessor.calculate_inventory_metrics` -/

/-- The dictionary returned by `calculate_inventory_metrics`. -/
structure InventoryMetrics where
  days_of_stock : ℚ
  status : String
  utilization_rate : ℚ
  deriving Repr, DecidableEq

/-- `DataProcessor.calculate_inventory_metrics(current_stock,
avg_daily_usage, reorder_point)`:
`days_of_stock = current_stock / avg_daily_usage if avg_daily_usage > 0
else 0`; status `Low - Reorder Now` below the reorder point, `Overstock`
above `avg_daily_usage * 60`, else `Normal`; `utilization_rate =
avg_daily_usage * 30 / current_stock * 100 if current_stock > 0 else 0`. -/
def calculate_inventory_metrics (current_stock avg_daily_usage
    reorder_point : ℚ) : InventoryMetrics :=
  { days_of_stock :=
      if avg_daily_usage > 0 then current_stock / avg_daily_usage else 0
    status :=
      if current_stock < reorder_point then "Low - Reorder Now"
      else if current_stock > avg_daily_usage * 60 then "Overstock"
      else "Normal"
    utilization_rate :=
      if current_stock > 0 then avg_daily_usage * 30 / current_stock * 100
      else 0 }

/-! ## pages/6_Intelligent_Alerts.py — `calculate_ingredient_consumption`

The sales frame rows carry `month`, `Item Name` and `Count`; `Count` has
already been coerced numeric (`pd.to_numeric(..., errors='coerce').fillna(0)`
at the top of the function), so it is a plain `ℚ` here.  `Item Name` can be
missing or non-string (`pd.isna(dish_name) or not isinstance(dish_name,
str)`), modelled as `Option String`.  The recipe rows are the output of
`DataProcessor.clean_ingredient_data` (column-name stripping, the
`Item name → dish_name` rename and NaN→0 on numeric columns), taken as
given: `dish_name` plus the remaining columns, a still-missing value
(`pd.isna`) being `none`. -/

/-- A row of the monthly sales frame (`all_sheets['item']`). -/
structure SalesRow where
  month : String
  itemName : Option String
  count : ℚ
  deriving Repr, DecidableEq

/-- A row of the cleaned recipe frame. -/
structure RecipeRow where
  dish_name : String
  cols : List (String × Option ℚ)
  deriving Repr, DecidableEq

/-- `recipe_col in recipe.index and pd.notna(recipe[recipe_col])` collapsed
into one lookup: the value when the column exists and is not missing. -/
def getCol (r : RecipeRow) (c : String) : Option ℚ :=
  match r.cols.find? (fun p => p.1 = c) with
  | some p => p.2
  | none => none

/-- Python `str.lower()` at character level (`String.toLower` does the same
per-character mapping but does not reduce in the kernel). -/
def lowerChars (s : String) : List Char := s.data.map Char.toLower

/-- Substring test on character lists, used below for
`Series.str.contains(pat, case=False)` (the pattern — the first word of a
sale's item name — is used as a plain substring; it contains no regex
metacharacters in this data). -/
def isInfixB (needle hay : List Char) : Bool :=
  (List.range (hay.length + 1)).any (fun i => needle.isPrefixOf (hay.drop i))

/-- Case-insensitive containment of `needle` in `hay`. -/
def containsCI (hay : String) (needle : List Char) : Bool :=
  isInfixB (needle.map Char.toLower) (lowerChars hay)

/-- `dish_name.split()[0]`: the first maximal run of non-whitespace
characters (Python `split()` splits on arbitrary whitespace and drops
empty pieces; the guard before the call ensures the name is not blank). -/
def firstToken (s : String) : List Char :=
  (s.data.dropWhile Char.isWhitespace).takeWhile (fun c => !c.isWhitespace)

/-- `recipe_clean[recipe_clean['dish_name'].str.contains(tok, case=False,
na=False)]` followed by `.iloc[0]`: the first recipe row whose dish name
contains the token case-insensitively. -/
def findRecipe (recipes : List RecipeRow) (tok : List Char) :
    Option RecipeRow :=
  recipes.find? (fun r => containsCI r.dish_name tok)

/-- The `ingredient_mapping` dictionary, in insertion order: raw recipe
column name → tracked ingredient name. -/
def ingredient_mapping : List (String × String) :=
  [("braised beef used (g)", "Beef"),
   ("Braised Chicken(g)", "Chicken"),
   ("Braised Pork(g)", "Pork"),
   ("Egg(count)", "Egg"),
   ("Rice(g)", "Rice"),
   ("Ramen (count)", "Ramen"),
   ("Rice Noodles(g)", "Rice Noodles"),
   ("flour (g)", "Flour"),
   ("Chicken Wings (pcs)", "Chicken Wings"),
   ("Green Onion", "Green Onion"),
   ("Cilantro", "Cilantro"),
   ("White onion", "White Onion"),
   ("Peas(g)", "Peas + Carrot"),
   ("Carrot(g)", "Peas + Carrot"),
   ("Boychoy(g)", "Bokchoy"),
   ("Tapioca Starch", "Tapioca Starch")]

/-- `month_consumption[tracked_ing] += usage`, guarded by `if tracked_ing
in month_consumption`: add to the existing entry, no-op when the key is
absent. -/
def addToKey (m : List (String × ℚ)) (k : String) (v : ℚ) :
    List (String × ℚ) :=
  m.map (fun p => if p.1 = k then (p.1, p.2 + v) else p)

/-- Whether a sale row reaches the accumulation step: a present, non-blank
item name whose first token matches some recipe. -/
def saleResolves (recipes : List RecipeRow) (s : SalesRow) : Bool :=
  match s.itemName with
  | none => false
  | some nm =>
    !nm.data.all Char.isWhitespace && (findRecipe recipes (firstToken nm)).isSome

/-- The body of the `for _, sale_row in month_sales.iterrows()` loop: skip
blank/missing names (`len(dish_name.strip()) == 0` ⟺ all characters
whitespace), resolve the recipe, then walk `ingredient_mapping.items()` in
order, accumulating `recipe[recipe_col] * quantity_sold` onto the mapped
tracked ingredient. -/
def processSale (recipes : List RecipeRow) (acc : List (String × ℚ))
    (sale : SalesRow) : List (String × ℚ) :=
  match sale.itemName with
  | none => acc
  | some nm =>
    if nm.data.all Char.isWhitespace then acc
    else
      match findRecipe recipes (firstToken nm) with
      | none => acc
      | some recipe =>
        ingredient_mapping.foldl (fun m pr =>
          match getCol recipe pr.1 with
          | some q => addToKey m pr.2 (q * sale.count)
          | none => m) acc

/-- `sales_df['month'].unique()`: the distinct values in first-occurrence
order. -/
def dedupFirst : List String → List String
  | [] => []
  | m :: ms => m :: (dedupFirst ms).filter (· ≠ m)

/-- `calculate_ingredient_consumption(sales_df, recipe_df, shipment_df)`
from `pages/6_Intelligent_Alerts.py`.  `tracked` is
`shipment_df['ingredient'].tolist()` (`[]` when the column is missing).
Returns the `consumption_data` list of per-month dictionaries: the month
key followed by one entry per tracked ingredient, initialised to 0 and
accumulated over that month's sales.  Empty sales or recipes, or no
tracked ingredients, return the empty frame. -/
def calculate_ingredient_consumption (sales : List SalesRow)
    (recipes : List RecipeRow) (tracked : List String) :
    List (String × List (String × ℚ)) :=
  if sales.isEmpty || recipes.isEmpty then []
  else if tracked.isEmpty then []
  else
    (dedupFirst (sales.map (·.month))).map (fun m =>
      (m, (sales.filter (·.month = m)).foldl (processSale recipes)
        (tracked.map (fun ing => (ing, (0 : ℚ))))))

/-- First value stored under key `k` (0 when absent), for stating lookups
into a month's dictionary. -/
def lookupV (k : String) (m : List (String × ℚ)) : ℚ :=
  match m.find? (fun p => p.1 = k) with
  | some p => p.2
  | none => 0

/-! ### C1: default-weight orientation of `weighted_moving_average` -/

/-- C1: evaluation of `weighted_moving_average` at the failing input
`history = [1, 2, 3]` (oldest first, so `3` is the most recent point),
default weights `[0.5, 0.3, 0.2]`, `periods = 1`.  The code returns
`0.5·1 + 0.3·2 + 0.2·3 = 1.7`, i.e. it applies `weights[0] = 0.5` to the
*oldest* of the last three points, while the claim (and the function's own
docstring, "gives more weight to recent data") requires
`0.5·3 + 0.3·2 + 0.2·1 = 2.3`. -/
theorem weighted_moving_average_failing_eval :
    weighted_moving_average [1, 2, 3] defaultWeights 1 = some [17/10] ∧
      (17 : ℚ)/10 ≠ (1/2) * 3 + (3/10) * 2 + (1/5) * 1 := by
  constructor
  · simp [weighted_moving_average, defaultWeights]
    norm_num
  · norm_num

/-! ### C4: days-of-stock at zero usage -/

/-- C4 counterexample: at `current_stock = 10`, `avg_daily_usage = 0`,
`calculate_inventory_metrics` returns `days_of_stock = 0` — the very same
ordinary finite value it reports for a positive usage with zero stock
(second conjunct) — not an undefined/infinite sentinel and not an error.
This refutes the claim that the computation "never reports an ordinary
finite days-of-stock value as if usage were positive". -/
theorem calculate_inventory_metrics_zero_usage_eval :
    (calculate_inventory_metrics 10 0 0).days_of_stock = 0 ∧
      (calculate_inventory_metrics 0 1 0).days_of_stock = 0 := by
  constructor
  · simp [calculate_inventory_metrics]
  · norm_num [calculate_inventory_metrics]

/-- C4 amended: the guard `if avg_daily_usage > 0` means no division by
zero ever happens, but the fallback is the ordinary finite value `0`, not a
sentinel or an error: `days_of_stock = current_stock / avg_daily_usage`
when usage is positive, and `0` otherwise. -/
theorem calculate_inventory_metrics_days_of_stock_guard
    (current_stock avg_daily_usage reorder_point : ℚ) :
    (0 < avg_daily_usage →
      (calculate_inventory_metrics current_stock avg_daily_usage
        reorder_point).days_of_stock = current_stock / avg_daily_usage) ∧
    (avg_daily_usage ≤ 0 →
      (calculate_inventory_metrics current_stock avg_daily_usage
        reorder_point).days_of_stock = 0) := by
  constructor
  · intro h
    simp [calculate_inventory_metrics, h]
  · intro h
    simp [calculate_inventory_metrics, not_lt_of_le h]

/-- C4 witness: both branches of the amended theorem at concrete inputs. -/
theorem calculate_inventory_metrics_days_of_stock_guard_witness :
    ((0 : ℚ) < 5 ∧ (calculate_inventory_metrics 10 5 0).days_of_stock = 10 / 5) ∧
      ((0 : ℚ) ≤ 0 ∧ (calculate_inventory_metrics 10 0 0).days_of_stock = 0) :=
  ⟨⟨by norm_num,
    (calculate_inventory_metrics_days_of_stock_guard 10 5 0).1 (by norm_num)⟩,
   ⟨le_refl 0,
    (calculate_inventory_metrics_days_of_stock_guard 10 0 0).2 (by norm_num)⟩⟩

/-! ### C10: overstock excess is strictly positive -/

/-- C10: for any threshold `≥ 30` (in particular the default 60), every
alert emitted by `detect_overstock` carries a strictly positive
`excess_amount`: emission requires `avg_daily_usage > 0` and
`current_stock / avg_daily_usage > threshold_days ≥ 30`, whence
`excess_amount = current_stock - avg_daily_usage * 30 > 0`. -/
theorem detect_overstock_excess_positive (inventory : List InvRow)
    (threshold_days : ℚ) (now : Nat) (hth : 30 ≤ threshold_days) :
    ∀ a ∈ detect_overstock inventory threshold_days now,
      ∀ e, a.excess_amount = some e → 0 < e := by
  intro a ha e he
  rcases List.mem_filterMap.mp ha with ⟨row, _, hrow⟩
  unfold overstockRowAlert at hrow
  by_cases hu : row.avg_daily_usage ≤ 0
  · simp [hu] at hrow
  · rw [if_neg hu] at hrow
    push_neg at hu
    by_cases hd : row.current_stock / row.avg_daily_usage > threshold_days
    · rw [if_pos hd] at hrow
      obtain rfl := Option.some_inj.mp hrow
      simp only [Alert.excess_amount, Option.some_inj] at he
      have h30 : 30 * row.avg_daily_usage < row.current_stock := by
        have := (lt_div_iff₀ hu).mp (lt_of_le_of_lt hth hd)
        linarith
      rw [← he]
      linarith
    · simp [hd] at hrow

/-- C10 witness: one concrete overstocked row (stock 80, usage 1,
threshold 60) whose alert has `excess_amount = 50 > 0`. -/
theorem detect_overstock_excess_positive_witness :
    (30 : ℚ) ≤ 60 ∧ (0 : ℚ) < 50 := by
  refine ⟨by norm_num, ?_⟩
  have hmem : (⟨"x", OVERSTOCK, MEDIUM, "Overstock Alert: x", 80, none,
      none, none, some 30, some 50, some 80, none, none, none, none, 0⟩ :
      Alert) ∈ detect_overstock [⟨"x", 80, 1, 7, 0⟩] 60 0 := by
    have h : detect_overstock [⟨"x", 80, 1, 7, 0⟩] 60 0 =
        [⟨"x", OVERSTOCK, MEDIUM, "Overstock Alert: x", 80, none,
          none, none, some 30, some 50, some 80, none, none, none, none, 0⟩] := by
      norm_num [detect_overstock, overstockRowAlert, List.filterMap]
      decide
    rw [h]
    exact List.mem_singleton.mpr rfl
  exact detect_overstock_excess_positive [⟨"x", 80, 1, 7, 0⟩] 60 0
    (by norm_num) _ hmem 50 rfl

/-! ### C6: MAPE alignment and division-by-zero guard -/

/-- The element-wise MAPE terms all succeed when every aligned actual
value is nonzero. -/
theorem optionMapList_safeDiv_isSome (l : List (ℚ × ℚ))
    (h : ∀ p ∈ l, p.1 ≠ 0) :
    (optionMapList (fun p => (safeDiv (p.1 - p.2) p.1).map abs) l).isSome := by
  induction l with
  | nil => simp [optionMapList]
  | cons x xs ih =>
    have hx : x.1 ≠ 0 := h x (List.mem_cons_self x xs)
    obtain ⟨ys, hys⟩ := Option.isSome_iff_exists.mp
      (ih (fun p hp => h p (List.mem_cons_of_mem x hp)))
    simp only [optionMapList]
    rw [hys]
    simp [safeDiv, hx]

/-- C6 counterexample: `actual = [0, 2]`, `forecast = [1, 1]`.  The aligned
mean is `1 > 0`, so the guard does not fire, and the element-wise division
`(actual - forecast) / actual` divides by the zero first element: a
division by zero occurs (pandas silently yields `inf` there), refuting "for
every pair of input series no division by zero occurs in the MAPE
computation". -/
theorem calculate_forecast_accuracy_div_zero_eval :
    (calculate_forecast_accuracy (fun _ => 0) [0, 2] [1, 1]).mape = none := by
  norm_num [calculate_forecast_accuracy, safeDiv, mean, optionMapList]

/-- C6 amended: `calculate_forecast_accuracy` aligns both series on the
overlapping prefix of length `min(len(actual), len(forecast))`, returns
`MAPE = 0` whenever the aligned mean of `actual` is `≤ 0` (in particular
`0`), and the division-by-zero freedom holds only when every element of
the aligned actual prefix is nonzero — not for every pair of inputs. -/
theorem calculate_forecast_accuracy_guards (sqrtQ : ℚ → ℚ)
    (actual forecast : List ℚ) :
    (calculate_forecast_accuracy sqrtQ actual forecast =
      calculate_forecast_accuracy sqrtQ
        (actual.take (min actual.length forecast.length))
        (forecast.take (min actual.length forecast.length))) ∧
    (mean (actual.take (min actual.length forecast.length)) ≤ 0 →
      (calculate_forecast_accuracy sqrtQ actual forecast).mape = some 0) ∧
    ((∀ x ∈ actual.take (min actual.length forecast.length), x ≠ 0) →
      ((calculate_forecast_accuracy sqrtQ actual forecast).mape).isSome) := by
  refine ⟨?_, ?_, ?_⟩
  · have hm : min (actual.take (min actual.length forecast.length)).length
        (forecast.take (min actual.length forecast.length)).length =
        min actual.length forecast.length := by
      simp only [List.length_take]
      omega
    simp only [calculate_forecast_accuracy, hm, List.take_take, min_self]
  · intro h
    simp only [calculate_forecast_accuracy, if_neg (not_lt.mpr h)]
  · intro h
    by_cases hpos :
        mean (actual.take (min actual.length forecast.length)) > 0
    · simp only [calculate_forecast_accuracy, if_pos hpos]
      rw [Option.isSome_map']
      exact optionMapList_safeDiv_isSome _
        (fun p hp => h p.1 (List.of_mem_zip hp).1)
    · simp only [calculate_forecast_accuracy, if_neg hpos]
      rfl

/-- C6 witness: both guarded branches of the amended theorem at concrete
inputs — zero-mean actual gives `MAPE = some 0`; an all-nonzero actual
prefix gives a defined MAPE. -/
theorem calculate_forecast_accuracy_guards_witness :
    (mean (([0, 0] : List ℚ).take
        (min ([0, 0] : List ℚ).length ([1, 1] : List ℚ).length)) ≤ 0 ∧
      (calculate_forecast_accuracy (fun _ => 0) [0, 0] [1, 1]).mape = some 0) ∧
    ((∀ x ∈ ([1, 2] : List ℚ).take
        (min ([1, 2] : List ℚ).length ([1, 1] : List ℚ).length), x ≠ 0) ∧
      ((calculate_forecast_accuracy (fun _ => 0) [1, 2] [1, 1]).mape).isSome) :=
  ⟨⟨by norm_num [mean],
    (calculate_forecast_accuracy_guards (fun _ => 0) [0, 0] [1, 1]).2.1
      (by norm_num [mean])⟩,
   ⟨by decide,
    (calculate_forecast_accuracy_guards (fun _ => 0) [1, 2] [1, 1]).2.2
      (by decide)⟩⟩

/-! ### C5: the ensemble is the mean of its components -/

/-- `moving_average_forecast` produces a series for every nonempty
history. -/
theorem moving_average_forecast_ne_none (data : List ℚ) (w p : Nat)
    (h : data ≠ []) : ∃ v, moving_average_forecast data w p = some v := by
  unfold moving_average_forecast
  rcases lt_or_ge data.length w with hlt | hge
  · exact ⟨List.replicate p (mean data), by rw [if_pos hlt]⟩
  · have hne : data.isEmpty = false := by
      simp [List.isEmpty_iff, h]
    refine ⟨List.replicate p (mean (data.drop (data.length - w))), ?_⟩
    rw [if_neg (not_lt.mpr hge)]
    simp [hne]

/-- `weighted_moving_average` with the default weights produces a series
for every nonempty history. -/
theorem weighted_moving_average_ne_none (data : List ℚ) (p : Nat)
    (h : data ≠ []) :
    ∃ v, weighted_moving_average data defaultWeights p = some v := by
  unfold weighted_moving_average
  by_cases hlt : data.length < defaultWeights.length
  · rw [if_pos hlt]
    exact moving_average_forecast_ne_none data _ p h
  · rw [if_neg hlt]
    exact ⟨_, rfl⟩

/-- C5: for every nonempty history, every `periods` and every horizon index
`i < periods`, the ensemble succeeds and `ensemble[i]` is the arithmetic
mean of the four component methods at `i` (all four succeed here: the
`try` guards only `linear_regression_forecast`, which is total, and the
other methods succeed on nonempty data). -/
theorem ensemble_forecast_mean_of_components (data : List ℚ)
    (periods i : Nat) (hdata : data ≠ []) (hi : i < periods) :
    ∃ r, ensemble_forecast data periods = some r ∧
      r.ensemble.getD i 0 =
        (r.moving_average.getD i 0 + r.exponential_smoothing.getD i 0 +
          r.weighted_ma.getD i 0 + r.linear_regression.getD i 0) / 4 := by
  obtain ⟨mav, hma⟩ := moving_average_forecast_ne_none data 3 periods hdata
  obtain ⟨wv, hwa⟩ := weighted_moving_average_ne_none data periods hdata
  refine ⟨⟨mav, exponential_smoothing data (3/10) periods, wv,
    linear_regression_forecast data periods,
    (List.range periods).map (fun j => mean
      ([mav, exponential_smoothing data (3/10) periods, wv,
        linear_regression_forecast data periods].map (fun f => f.getD j 0)))⟩,
    ?_, ?_⟩
  · simp [ensemble_forecast, hma, hwa]
  · simp only [List.getD_eq_getElem?_getD, List.getElem?_map,
      List.getElem?_range, hi, Option.map_some, Option.getD_some]
    simp [mean]
    ring

/-- C5 witness: history `[1,2,3]`, one forecast step, index 0. -/
theorem ensemble_forecast_mean_of_components_witness :
    ([1, 2, 3] : List ℚ) ≠ [] ∧ 0 < 1 ∧
      ∃ r, ensemble_forecast [1, 2, 3] 1 = some r ∧
        r.ensemble.getD 0 0 =
          (r.moving_average.getD 0 0 + r.exponential_smoothing.getD 0 0 +
            r.weighted_ma.getD 0 0 + r.linear_regression.getD 0 0) / 4 :=
  ⟨by simp, by norm_num,
    ensemble_forecast_mean_of_components [1, 2, 3] 1 0 (by simp) (by norm_num)⟩

/-! ### C2: at most one stockout alert per ingredient, first match wins -/

/-- Every alert `stockoutRowAlert` emits carries the row's ingredient. -/
theorem stockoutRowAlert_ingredient (tfs : List Nat) (now : Nat)
    (row : InvRow) (a : Alert) (h : stockoutRowAlert tfs now row = some a) :
    a.ingredient = row.ingredient := by
  unfold stockoutRowAlert at h
  by_cases hu : row.avg_daily_usage ≤ 0
  · simp [hu] at h
  · rw [if_neg hu] at h
    obtain ⟨t, _, hfa⟩ := Option.map_eq_some'.mp h
    rw [← hfa]

/-- Alerts of a per-row detector pass only mention inventory ingredients. -/
theorem mem_filterMap_ingredient (f : InvRow → Option Alert)
    (hf : ∀ row a, f row = some a → a.ingredient = row.ingredient) :
    ∀ (inv : List InvRow), ∀ b ∈ inv.filterMap f,
      b.ingredient ∈ inv.map (·.ingredient) := by
  intro inv b hb
  rcases List.mem_filterMap.mp hb with ⟨row, hrow, hrb⟩
  rw [hf row b hrb]
  exact List.mem_map_of_mem _ hrow

/-- A per-row detector pass over a duplicate-free inventory yields at most
one alert per ingredient name. -/
theorem filterMap_count_le_one (f : InvRow → Option Alert)
    (hf : ∀ row a, f row = some a → a.ingredient = row.ingredient) :
    ∀ (inv : List InvRow), (inv.map (·.ingredient)).Nodup →
      ∀ name, ((inv.filterMap f).filter
        (fun x => x.ingredient == name)).length ≤ 1 := by
  intro inv
  induction inv with
  | nil => intro _ name; simp
  | cons row rest ih =>
    intro hnd name
    simp only [List.map_cons, List.nodup_cons] at hnd
    rw [List.filterMap_cons]
    cases hfr : f row with
    | none => exact ih hnd.2 name
    | some a =>
      rw [List.filter_cons]
      by_cases hname : a.ingredient = name
      · have hrest : (rest.filterMap f).filter
            (fun x => x.ingredient == name) = [] := by
          refine List.filter_eq_nil_iff.mpr (fun b hb => ?_)
          have hbmem := mem_filterMap_ingredient f hf rest b hb
          have : b.ingredient ≠ name := by
            intro hbn
            apply hnd.1
            have heq : row.ingredient = b.ingredient := by
              rw [hbn, ← hname, hf row a hfr]
            rw [heq]
            exact hbmem
          simpa using this
        simp [hname, hrest]
      · have : (a.ingredient == name) = false := by
          simpa using hname
        rw [this]
        simp only [Bool.false_eq_true, if_false]
        exact ih hnd.2 name

/-- Over a duplicate-free inventory, the alerts of a per-row detector pass
filtered to one row's ingredient are exactly that row's optional alert. -/
theorem filterMap_filter_eq_rowAlert (f : InvRow → Option Alert)
    (hf : ∀ row a, f row = some a → a.ingredient = row.ingredient) :
    ∀ (inv : List InvRow), (inv.map (·.ingredient)).Nodup →
      ∀ row ∈ inv, (inv.filterMap f).filter
          (fun x => x.ingredient == row.ingredient) = (f row).toList := by
  intro inv
  induction inv with
  | nil => intro _ row hrow; cases hrow
  | cons hd rest ih =>
    intro hnd row hrow
    simp only [List.map_cons, List.nodup_cons] at hnd
    rw [List.filterMap_cons]
    rcases List.mem_cons.mp hrow with rfl | hrest
    · have hnil : (rest.filterMap f).filter
          (fun x => x.ingredient == row.ingredient) = [] := by
        refine List.filter_eq_nil_iff.mpr (fun b hb => ?_)
        have hbmem := mem_filterMap_ingredient f hf rest b hb
        have : b.ingredient ≠ row.ingredient := by
          intro hbn
          rw [hbn] at hbmem
          exact hnd.1 hbmem
        simpa using this
      cases hfr : f row with
      | none => simpa using hnil
      | some a =>
        have ha : a.ingredient = row.ingredient := hf row a hfr
        rw [List.filter_cons]
        simp [ha, hnil]
    · cases hfr : f hd with
      | none => exact ih hnd.2 row hrest
      | some a =>
        have hne : a.ingredient ≠ row.ingredient := by
          rw [hf hd a hfr]
          intro hcontra
          apply hnd.1
          rw [hcontra]
          exact List.mem_map_of_mem _ hrest
        rw [List.filter_cons]
        have : (a.ingredient == row.ingredient) = false := by
          simpa using hne
        rw [this]
        simp only [Bool.false_eq_true, if_false]
        exact ih hnd.2 row hrest

/-- When every configured timeframe is strictly exceeded, the inner loop
matches nothing. -/
theorem firstMatchingTimeframe_eq_none (d : ℚ) :
    ∀ tfs : List Nat, (∀ t ∈ tfs, (t : ℚ) < d) →
      firstMatchingTimeframe d tfs = none := by
  intro tfs
  induction tfs with
  | nil => intro _; rfl
  | cons t ts ih =>
    intro h
    unfold firstMatchingTimeframe
    rw [if_neg (not_le.mpr (h t (List.mem_cons_self t ts)))]
    exact ih (fun u hu => h u (List.mem_cons_of_mem t hu))

/-- On an ascending timeframe list, the first match is the smallest
matching timeframe. -/
theorem firstMatchingTimeframe_min (d : ℚ) :
    ∀ tfs : List Nat, tfs.Sorted (· ≤ ·) →
      ∀ t, firstMatchingTimeframe d tfs = some t →
        d ≤ (t : ℚ) ∧ ∀ u ∈ tfs, d ≤ (u : ℚ) → t ≤ u := by
  intro tfs
  induction tfs with
  | nil => intro _ t h; cases h
  | cons t0 ts ih =>
    intro hs t h
    rw [List.sorted_cons] at hs
    unfold firstMatchingTimeframe at h
    by_cases hd : d ≤ (t0 : ℚ)
    · rw [if_pos hd] at h
      obtain rfl := Option.some_inj.mp h
      refine ⟨hd, fun u hu _ => ?_⟩
      rcases List.mem_cons.mp hu with rfl | hu'
      · exact le_refl u
      · exact hs.1 u hu'
    · rw [if_neg hd] at h
      obtain ⟨hdt, hmin⟩ := ih hs.2 t h
      refine ⟨hdt, fun u hu hdu => ?_⟩
      rcases List.mem_cons.mp hu with rfl | hu'
      · exact absurd hdu hd
      · exact hmin u hu' hdu

/-- C2 counterexample: inventory row `x` with 2 days of stock and the
(configured, unsorted) timeframe list `[14, 3]`.  The single emitted alert
carries timeframe 14 — the *first* match in list order — although the
strictly smaller timeframe 3 also matches (`2 ≤ 3 < 14`), refuting "the
smallest timeframe in the list that days_remaining is less than or equal
to" for arbitrary configured lists. -/
theorem detect_stockout_risk_not_smallest_eval :
    (detect_stockout_risk [⟨"x", 2, 1, 7, 0⟩] [14, 3] 0).map
        (fun a => a.timeframe) = [some 14] ∧
      (3 : Nat) ∈ [14, 3] ∧ (2 : ℚ) / 1 ≤ 3 ∧ (3 : Nat) < 14 := by
  refine ⟨?_, by norm_num, by norm_num, by norm_num⟩
  norm_num [detect_stockout_risk, stockoutRowAlert, firstMatchingTimeframe,
    List.filterMap]

/-- C2 amended: over any inventory with pairwise-distinct ingredient names
(the shipment table's `ingredient` is a unique key), `detect_stockout_risk`
emits at most one alert per ingredient per run; for a row with
`avg_daily_usage > 0` the alerts filtered to its ingredient are exactly its
per-row optional alert — one alert for the *first* timeframe in configured
list order that `days_remaining` is `≤` to (the smallest matching one
whenever the list is sorted ascending, e.g. the default `[3,7,14]`), and no
alert when `days_remaining` exceeds every timeframe. -/
theorem detect_stockout_risk_single_alert (inv : List InvRow)
    (tfs : List Nat) (now : Nat)
    (hnd : (inv.map (·.ingredient)).Nodup) :
    (∀ name, ((detect_stockout_risk inv tfs now).filter
        (fun a => a.ingredient == name)).length ≤ 1) ∧
    (∀ row ∈ inv, (detect_stockout_risk inv tfs now).filter
        (fun a => a.ingredient == row.ingredient) =
          (stockoutRowAlert tfs now row).toList) ∧
    (∀ row ∈ inv, 0 < row.avg_daily_usage →
      ∀ t, firstMatchingTimeframe
          (row.current_stock / row.avg_daily_usage) tfs = some t →
        ∃ a, stockoutRowAlert tfs now row = some a ∧ a.timeframe = some t) ∧
    (∀ row ∈ inv, 0 < row.avg_daily_usage →
      (∀ t ∈ tfs, (t : ℚ) < row.current_stock / row.avg_daily_usage) →
      stockoutRowAlert tfs now row = none) ∧
    (∀ (d : ℚ) (t : Nat), tfs.Sorted (· ≤ ·) →
      firstMatchingTimeframe d tfs = some t →
        d ≤ (t : ℚ) ∧ ∀ u ∈ tfs, d ≤ (u : ℚ) → t ≤ u) := by
  refine ⟨?_, ?_, ?_, ?_, ?_⟩
  · exact filterMap_count_le_one _ (stockoutRowAlert_ingredient tfs now)
      inv hnd
  · exact filterMap_filter_eq_rowAlert _ (stockoutRowAlert_ingredient tfs now)
      inv hnd
  · intro row _ hu t ht
    simp only [stockoutRowAlert, if_neg (not_le.mpr hu), ht,
      Option.map_some']
    exact ⟨_, rfl, rfl⟩
  · intro row _ hu hall
    simp only [stockoutRowAlert, if_neg (not_le.mpr hu),
      firstMatchingTimeframe_eq_none _ tfs hall, Option.map_none']
  · intro d t hs ht
    exact firstMatchingTimeframe_min d tfs hs t ht

/-- C2 witness: one row with 10 days of stock against the default sorted
list `[3, 7, 14]`: exactly one alert, for timeframe 14 (the smallest
matching), and the minimality clause at `d = 10`. -/
theorem detect_stockout_risk_single_alert_witness :
    (([⟨"x", 10, 1, 7, 0⟩] : List InvRow).map (·.ingredient)).Nodup ∧
      ((detect_stockout_risk [⟨"x", 10, 1, 7, 0⟩] [3, 7, 14] 0).filter
        (fun a => a.ingredient == "x")).length ≤ 1 ∧
      ((10 : ℚ) ≤ ((14 : Nat) : ℚ) ∧
        ∀ u ∈ ([3, 7, 14] : List Nat), (10 : ℚ) ≤ (u : ℚ) →
          (14 : Nat) ≤ u) := by
  have hnd : (([⟨"x", 10, 1, 7, 0⟩] : List InvRow).map (·.ingredient)).Nodup := by
    simp
  have h := detect_stockout_risk_single_alert [⟨"x", 10, 1, 7, 0⟩]
    [3, 7, 14] 0 hnd
  refine ⟨hnd, h.1 "x", ?_⟩
  exact h.2.2.2.2 10 14 (by norm_num [List.Sorted, List.sorted_cons])
    (by norm_num [firstMatchingTimeframe])

/-! ### C8: behaviour on empty inputs -/

/-- C8 counterexample: `moving_average_forecast` on an empty history with
its default window does *not* return an empty series (it returns the
empty-history mean — `NaN` in pandas — repeated `periods` times), and
`weighted_moving_average` on an empty history raises
(`moving_average_forecast(data, window=0)` reaches `.iloc[-1]` on an empty
series — embedded `none`) instead of returning anything. -/
theorem forecast_empty_history_eval :
    moving_average_forecast [] 3 30 ≠ some [] ∧
      weighted_moving_average [] defaultWeights 30 = none := by
  constructor
  · simp [moving_average_forecast]
  · simp [weighted_moving_average, moving_average_forecast, defaultWeights]

/-- C8 amended: every alert detector applied to an empty frame returns the
empty list without raising; but the forecasting methods on an empty
history return a `periods`-long constant series (the empty mean, `NaN` in
pandas), not an empty one — and `weighted_moving_average` on an empty
history propagates an exception from its window-0 fallback. -/
theorem empty_input_behavior (tfs : List Nat) (th : ℚ) (now : Nat)
    (sqrtQ : ℚ → ℚ) (thr : ℚ) (cols : List (String × List ℚ))
    (w p : Nat) (alpha : ℚ) (weights : List ℚ) :
    detect_stockout_risk [] tfs now = [] ∧
    detect_overstock [] th now = [] ∧
    detect_optimal_reorder_timing [] now = [] ∧
    detect_consumption_anomalies sqrtQ ⟨[], cols⟩ thr now = [] ∧
    (1 ≤ w → moving_average_forecast [] w p =
      some (List.replicate p (mean []))) ∧
    exponential_smoothing [] alpha p = List.replicate p (mean []) ∧
    linear_regression_forecast [] p = List.replicate p (mean []) ∧
    (weights ≠ [] → weighted_moving_average [] weights p = none) := by
  refine ⟨rfl, rfl, rfl, ?_, ?_, rfl, rfl, ?_⟩
  · simp [detect_consumption_anomalies]
  · intro hw
    simp [moving_average_forecast, hw]
    omega
  · intro hw
    have : 0 < weights.length := List.length_pos.mpr hw
    simp [weighted_moving_average, moving_average_forecast, this]

/-- C8 witness: the guarded branches of the amended theorem at `window =
3`, `periods = 30` and the default weights. -/
theorem empty_input_behavior_witness :
    (1 ≤ 3 ∧ moving_average_forecast [] 3 30 =
      some (List.replicate 30 (mean []))) ∧
    (defaultWeights ≠ [] ∧
      weighted_moving_average [] defaultWeights 30 = none) :=
  ⟨⟨by norm_num,
    (empty_input_behavior [] 0 0 (fun _ => 0) 0 [] 3 30 0
      defaultWeights).2.2.2.2.1 (by norm_num)⟩,
   ⟨by simp [defaultWeights],
    (empty_input_behavior [] 0 0 (fun _ => 0) 0 [] 3 30 0
      defaultWeights).2.2.2.2.2.2.2 (by simp [defaultWeights])⟩⟩

/-! ### C3: determinism of analysis runs -/

/-- Strip the wall-clock `timestamp` from an alert (all other fields are
pure functions of the run's inputs). -/
def eraseTs (a : Alert) : Alert := { a with timestamp := 0 }

/-- Two per-row detector bodies that agree up to timestamps produce
pointwise timestamp-erased-equal passes. -/
theorem map_eraseTs_filterMap {α : Type} (g g' : α → Option Alert)
    (h : ∀ x, (g x).map eraseTs = (g' x).map eraseTs) (l : List α) :
    (l.filterMap g).map eraseTs = (l.filterMap g').map eraseTs := by
  induction l with
  | nil => rfl
  | cons x xs ih =>
    rw [List.filterMap_cons, List.filterMap_cons]
    have hx := h x
    cases hg : g x with
    | none =>
      rw [hg] at hx
      cases hg' : g' x with
      | none => exact ih
      | some b => rw [hg'] at hx; simp at hx
    | some a =>
      rw [hg] at hx
      cases hg' : g' x with
      | none => rw [hg'] at hx; simp at hx
      | some b =>
        rw [hg'] at hx
        simp only [Option.map_some', Option.some_inj] at hx
        rw [List.map_cons, List.map_cons, hx, ih]

/-- The stockout row body depends on the clock only through `timestamp`. -/
theorem stockoutRowAlert_eraseTs (tfs : List Nat) (t t' : Nat)
    (row : InvRow) :
    (stockoutRowAlert tfs t row).map eraseTs =
      (stockoutRowAlert tfs t' row).map eraseTs := by
  by_cases hu : row.avg_daily_usage ≤ 0
  · simp [stockoutRowAlert, hu]
  · simp only [stockoutRowAlert, if_neg hu]
    cases hft : firstMatchingTimeframe
        (row.current_stock / row.avg_daily_usage) tfs <;>
      simp [hft, eraseTs]

/-- The overstock row body depends on the clock only through `timestamp`. -/
theorem overstockRowAlert_eraseTs (th : ℚ) (t t' : Nat) (row : InvRow) :
    (overstockRowAlert th t row).map eraseTs =
      (overstockRowAlert th t' row).map eraseTs := by
  by_cases hu : row.avg_daily_usage ≤ 0
  · simp [overstockRowAlert, hu]
  · by_cases hd : row.current_stock / row.avg_daily_usage > th <;>
      simp [overstockRowAlert, hu, hd, eraseTs]

/-- The reorder-timing row body depends on the clock only through
`timestamp`. -/
theorem reorderRowAlert_eraseTs (t t' : Nat) (row : InvRow) :
    (reorderRowAlert t row).map eraseTs =
      (reorderRowAlert t' row).map eraseTs := by
  by_cases hu : row.avg_daily_usage ≤ 0
  · simp [reorderRowAlert, hu]
  · by_cases hd : row.lead_time_days + 3 ≤
        row.current_stock / row.avg_daily_usage ∧
        row.current_stock / row.avg_daily_usage ≤
          row.lead_time_days + 3 + 7 <;>
      simp [reorderRowAlert, hu, hd, eraseTs]

/-- The anomaly column body depends on the clock only through
`timestamp`. -/
theorem anomalyColAlert_eraseTs (sqrtQ : ℚ → ℚ) (thr : ℚ) (t t' : Nat)
    (col : String × List ℚ) :
    (anomalyColAlert sqrtQ thr t col).map eraseTs =
      (anomalyColAlert sqrtQ thr t' col).map eraseTs := by
  simp only [anomalyColAlert]
  split
  · rfl
  · split
    · rfl
    · split
      · simp [eraseTs]
      · split
        · simp [eraseTs]
        · rfl

/-- The concatenated detector output is clock-independent up to
timestamps. -/
theorem all_alerts_concat_eraseTs (sqrtQ : ℚ → ℚ) (inv : List InvRow)
    (cons : Option ConsumptionDF) (t t' : Nat) :
    (all_alerts_concat sqrtQ inv cons t).map eraseTs =
      (all_alerts_concat sqrtQ inv cons t').map eraseTs := by
  have h1 := map_eraseTs_filterMap _ _
    (stockoutRowAlert_eraseTs [3, 7, 14] t t') inv
  have h2 := map_eraseTs_filterMap _ _
    (overstockRowAlert_eraseTs 60 t t') inv
  have h3 := map_eraseTs_filterMap _ _ (reorderRowAlert_eraseTs t t') inv
  have h4 : ((match cons with
      | some c => if c.months.isEmpty then [] else
          detect_consumption_anomalies sqrtQ c 2 t
      | none => []) : List Alert).map eraseTs =
      ((match cons with
      | some c => if c.months.isEmpty then [] else
          detect_consumption_anomalies sqrtQ c 2 t'
      | none => []) : List Alert).map eraseTs := by
    cases cons with
    | none => rfl
    | some c =>
      by_cases hc : c.months.isEmpty
      · simp [hc]
      · simp only [hc, Bool.false_eq_true, if_false]
        unfold detect_consumption_anomalies
        by_cases hlen : c.months.length < 3
        · simp [hlen]
        · simp only [if_neg hlen]
          exact map_eraseTs_filterMap _ _
            (anomalyColAlert_eraseTs sqrtQ 2 t t') c.cols
  unfold all_alerts_concat detect_stockout_risk detect_overstock
    detect_optimal_reorder_timing
  simp only [List.map_append]
  rw [h1, h2, h3, h4]

/-- Erasing timestamps commutes with `orderedInsert` (the comparison reads
only the priority, which `eraseTs` preserves). -/
theorem map_eraseTs_orderedInsert (a : Alert) (l : List Alert) :
    (List.orderedInsert alertLE a l).map eraseTs =
      List.orderedInsert alertLE (eraseTs a) (l.map eraseTs) := by
  induction l with
  | nil => rfl
  | cons b bs ih =>
    by_cases h : alertLE a b
    · have h' : alertLE (eraseTs a) (eraseTs b) := h
      simp [List.orderedInsert, h, h']
    · have h' : ¬alertLE (eraseTs a) (eraseTs b) := h
      simp [List.orderedInsert, h, h', ih]

/-- Erasing timestamps commutes with the priority sort. -/
theorem map_eraseTs_sortAlerts (l : List Alert) :
    (sortAlerts l).map eraseTs = sortAlerts (l.map eraseTs) := by
  induction l with
  | nil => rfl
  | cons a as ih =>
    simp only [sortAlerts, List.insertionSort, List.map_cons] at *
    rw [map_eraseTs_orderedInsert, ih]

/-- C3 counterexample: one inventory row with 2 days of stock; two runs of
`generate_all_alerts` on the *same* snapshots but at successive clock
readings (the second call's `datetime.now()` is later) return alert lists
that differ — in the `timestamp` field — so the lists are not identical in
all fields. -/
theorem generate_all_alerts_timestamp_eval :
    (generate_all_alerts (fun _ => 0) [⟨"x", 2, 1, 7, 0⟩] none 0).map
        (fun a => a.timestamp) = [0] ∧
      (generate_all_alerts (fun _ => 0) [⟨"x", 2, 1, 7, 0⟩] none 1).map
        (fun a => a.timestamp) = [1] ∧
      generate_all_alerts (fun _ => 0) [⟨"x", 2, 1, 7, 0⟩] none 0 ≠
        generate_all_alerts (fun _ => 0) [⟨"x", 2, 1, 7, 0⟩] none 1 := by
  have e0 : (generate_all_alerts (fun _ => 0) [⟨"x", 2, 1, 7, 0⟩] none 0).map
      (fun a => a.timestamp) = [0] := by
    norm_num [generate_all_alerts, all_alerts_concat, detect_stockout_risk,
      detect_overstock, detect_optimal_reorder_timing, stockoutRowAlert,
      overstockRowAlert, reorderRowAlert, firstMatchingTimeframe,
      sortAlerts, List.insertionSort, List.orderedInsert, List.filterMap]
  have e1 : (generate_all_alerts (fun _ => 0) [⟨"x", 2, 1, 7, 0⟩] none 1).map
      (fun a => a.timestamp) = [1] := by
    norm_num [generate_all_alerts, all_alerts_concat, detect_stockout_risk,
      detect_overstock, detect_optimal_reorder_timing, stockoutRowAlert,
      overstockRowAlert, reorderRowAlert, firstMatchingTimeframe,
      sortAlerts, List.insertionSort, List.orderedInsert, List.filterMap]
  refine ⟨e0, e1, fun h => ?_⟩
  rw [h] at e0
  have : ([0] : List Nat) = [1] := e0.symm.trans e1
  simp at this

/-- C3 amended: every forecasting method and detector is a pure function
of its arguments (determinism given identical inputs *and* clock reading is
definitional in this embedding), and `generate_all_alerts` is deterministic
in every field except `timestamp`: runs at any two clock readings agree
after erasing timestamps. -/
theorem generate_all_alerts_deterministic_mod_timestamp (sqrtQ : ℚ → ℚ)
    (inv : List InvRow) (cons : Option ConsumptionDF) (t1 t2 : Nat) :
    (generate_all_alerts sqrtQ inv cons t1).map eraseTs =
      (generate_all_alerts sqrtQ inv cons t2).map eraseTs := by
  unfold generate_all_alerts
  rw [map_eraseTs_sortAlerts, map_eraseTs_sortAlerts,
    all_alerts_concat_eraseTs sqrtQ inv cons t1 t2]

/-! ### C7: output sorted by priority rank, stable within rank -/

/-- Inserting into a rank-sorted list either prepends to the rank class
(when the inserted alert has that rank — everything it is placed behind has
strictly smaller rank) or leaves the rank class unchanged. -/
theorem filter_rank_orderedInsert (a : Alert) (l : List Alert) (n : Nat)
    (hl : l.Sorted alertLE) :
    (List.orderedInsert alertLE a l).filter
        (fun x => priority_order x.priority == n) =
      if priority_order a.priority = n then
        a :: l.filter (fun x => priority_order x.priority == n)
      else l.filter (fun x => priority_order x.priority == n) := by
  induction l with
  | nil =>
    by_cases h : priority_order a.priority = n <;>
      simp [List.orderedInsert, h]
  | cons b bs ih =>
    rw [List.sorted_cons] at hl
    by_cases hab : alertLE a b
    · simp only [List.orderedInsert, if_pos hab]
      by_cases ha : priority_order a.priority = n <;>
        simp [List.filter_cons, ha]
    · simp only [List.orderedInsert, if_neg hab]
      have hba : priority_order b.priority < priority_order a.priority := by
        unfold alertLE at hab
        exact not_le.mp hab
      by_cases ha : priority_order a.priority = n
      · have hbn : (priority_order b.priority == n) = false := by
          simp only [beq_eq_false_iff_ne, ne_eq]
          omega
        simp [List.filter_cons, hbn, ih hl.2, ha]
      · simp [List.filter_cons, ih hl.2, ha]

/-- The stable sort preserves each rank class (its members, in their
original order). -/
theorem filter_rank_sortAlerts (l : List Alert) (n : Nat) :
    (sortAlerts l).filter (fun x => priority_order x.priority == n) =
      l.filter (fun x => priority_order x.priority == n) := by
  induction l with
  | nil => rfl
  | cons a as ih =>
    have hs : (List.insertionSort alertLE as).Sorted alertLE :=
      List.sorted_insertionSort alertLE as
    rw [sortAlerts, List.insertionSort,
      filter_rank_orderedInsert a _ n hs]
    by_cases h : priority_order a.priority = n
    · rw [if_pos h, List.filter_cons]
      have : (priority_order a.priority == n) = true := by simp [h]
      rw [this]
      simp only [if_true]
      rw [← sortAlerts, ih]
    · rw [if_neg h, List.filter_cons]
      have : (priority_order a.priority == n) = false := by simp [h]
      rw [this]
      simp only [Bool.false_eq_true, if_false]
      rw [← sortAlerts, ih]

/-- C7: `generate_all_alerts` returns the alerts with non-decreasing
priority rank (critical before high before medium before low before info),
and within each rank exactly the alerts of the detector concatenation
(stockout, overstock, reorder-timing, anomaly) in emission order — the
stable-sort tie-break. -/
theorem generate_all_alerts_sorted_stable (sqrtQ : ℚ → ℚ)
    (inv : List InvRow) (cons : Option ConsumptionDF) (now : Nat) :
    List.Pairwise
      (fun a b => priority_order a.priority ≤ priority_order b.priority)
      (generate_all_alerts sqrtQ inv cons now) ∧
    ∀ n, (generate_all_alerts sqrtQ inv cons now).filter
        (fun a => priority_order a.priority == n) =
      (all_alerts_concat sqrtQ inv cons now).filter
        (fun a => priority_order a.priority == n) := by
  constructor
  · exact List.sorted_insertionSort alertLE _
  · intro n
    exact filter_rank_sortAlerts _ n

/-! ### C9: consumption alignment and exact per-month sums -/

/-- `addToKey` never changes the key list of a month dictionary. -/
theorem addToKey_keys (m : List (String × ℚ)) (k : String) (v : ℚ) :
    (addToKey m k v).map Prod.fst = m.map Prod.fst := by
  induction m with
  | nil => rfl
  | cons p ps ih =>
    simp only [addToKey, List.map_cons] at ih ⊢
    by_cases h : p.1 = k <;> simp [h, ih]

/-- The walk over `ingredient_mapping` never changes the key list. -/
theorem mappingFold_keys (r : RecipeRow) (c : ℚ) :
    ∀ (l : List (String × String)) (acc : List (String × ℚ)),
      (l.foldl (fun m pr =>
        match getCol r pr.1 with
        | some q => addToKey m pr.2 (q * c)
        | none => m) acc).map Prod.fst = acc.map Prod.fst := by
  intro l
  induction l with
  | nil => intro _; rfl
  | cons pr rest ih =>
    intro acc
    rw [List.foldl_cons]
    cases hg : getCol r pr.1 with
    | none =>
      simp only [hg]
      exact ih acc
    | some q =>
      simp only [hg]
      rw [ih, addToKey_keys]

/-- Processing one sale never changes the key list. -/
theorem processSale_keys (recipes : List RecipeRow)
    (acc : List (String × ℚ)) (sale : SalesRow) :
    (processSale recipes acc sale).map Prod.fst = acc.map Prod.fst := by
  unfold processSale
  cases hnm : sale.itemName with
  | none => rfl
  | some nm =>
    by_cases hb : nm.data.all Char.isWhitespace
    · simp [hb]
    · simp only [hb, Bool.false_eq_true, if_false]
      cases hr : findRecipe recipes (firstToken nm) with
      | none => rfl
      | some r => exact mappingFold_keys r sale.count ingredient_mapping acc

/-- Accumulating a month of sales never changes the key list. -/
theorem foldl_processSale_keys (recipes : List RecipeRow)
    (ss : List SalesRow) :
    ∀ acc, ((ss.foldl (processSale recipes) acc).map Prod.fst =
      acc.map Prod.fst) := by
  induction ss with
  | nil => intro _; rfl
  | cons s rest ih =>
    intro acc
    rw [List.foldl_cons, ih, processSale_keys]

/-- The single-ingredient-column recipe of the claim: dish `Ramen Bowl`,
one mapped column `Ramen (count)` worth `q` per dish. -/
def ramenRecipe (q : ℚ) : RecipeRow :=
  ⟨"Ramen Bowl", [("Ramen (count)", some q)]⟩

/-- Column lookup on the single-column recipe. -/
theorem getCol_ramenRecipe (q : ℚ) (c : String) :
    getCol (ramenRecipe q) c =
      if "Ramen (count)" = c then some q else none := by
  unfold getCol ramenRecipe
  by_cases h : "Ramen (count)" = c <;> simp [List.find?, h]

/-- Processing one sale against the single-column recipe either adds
`q * count` to the `Ramen` entry (when the sale resolves) or does
nothing. -/
theorem processSale_ramen (q : ℚ) (acc : List (String × ℚ))
    (s : SalesRow) :
    processSale [ramenRecipe q] acc s =
      if saleResolves [ramenRecipe q] s then
        addToKey acc "Ramen" (q * s.count)
      else acc := by
  unfold processSale saleResolves
  cases hnm : s.itemName with
  | none => rfl
  | some nm =>
    by_cases hb : nm.data.all Char.isWhitespace
    · simp [hb]
    · simp only [hb, Bool.false_eq_true, if_false, Bool.not_false,
        Bool.true_and]
      cases hf : findRecipe [ramenRecipe q] (firstToken nm) with
      | none => simp [hf]
      | some rec =>
        have hrec : rec = ramenRecipe q := by
          have := List.mem_of_find?_eq_some hf
          simpa using this
        subst hrec
        simp only [hf, Option.isSome_some, if_true]
        simp [ingredient_mapping, getCol_ramenRecipe]

/-- Folding a list of sales over the singleton `Ramen` dictionary
accumulates exactly `q` times the counts of the resolving sales. -/
theorem foldl_processSale_ramen (q : ℚ) :
    ∀ (ss : List SalesRow) (v : ℚ),
      ss.foldl (processSale [ramenRecipe q]) [("Ramen", v)] =
        [("Ramen", v + q * ((ss.filter
          (fun s => saleResolves [ramenRecipe q] s)).map
            (fun s => s.count)).sum)] := by
  intro ss
  induction ss with
  | nil => intro v; simp
  | cons s rest ih =>
    intro v
    rw [List.foldl_cons, processSale_ramen, List.filter_cons]
    by_cases hres : saleResolves [ramenRecipe q] s
    · have haddK : addToKey [("Ramen", v)] "Ramen" (q * s.count) =
          [("Ramen", v + q * s.count)] := by
        simp [addToKey]
      rw [if_pos hres, haddK, ih, if_pos hres]
      simp only [List.map_cons, List.sum_cons, List.cons.injEq,
        Prod.mk.injEq, and_true, true_and]
      ring
    · have hres' : saleResolves [ramenRecipe q] s = false := by
        simpa using hres
      rw [if_neg hres, ih]
      rw [hres']
      simp only [Bool.false_eq_true, if_false]

/-- C9 counterexample: a nonempty sales table (month `May`) with an empty
recipe table and one tracked ingredient: the guard returns the empty
frame, so month `May` gets *no* entries at all for the tracked ingredient
`Beef`, refuting "an entry for every tracked ingredient for every month
present in the sales input" for arbitrary inputs. -/
theorem calculate_ingredient_consumption_empty_recipe_eval :
    calculate_ingredient_consumption [⟨"May", some "X", 1⟩] [] ["Beef"]
        = [] ∧
      ([⟨"May", some "X", 1⟩] : List SalesRow).map (·.month) = ["May"] := by
  constructor <;> rfl

/-- C9 amended: provided the recipe table and the tracked-ingredient list
are nonempty (with empty ones the guard returns the empty frame), the
output has one row per distinct sales month in first-occurrence order,
each row carries exactly the tracked ingredients as keys (initialised to 0,
so never-referenced ingredients appear with value 0); and for the
single-column recipe worth `q` per dish, each month's `Ramen` entry is
exactly `q` times the summed count of that month's resolving sales. -/
theorem calculate_ingredient_consumption_aligned :
    (∀ (sales : List SalesRow) (recipes : List RecipeRow)
        (tracked : List String), recipes ≠ [] → tracked ≠ [] →
      (calculate_ingredient_consumption sales recipes tracked).map Prod.fst =
        dedupFirst (sales.map (·.month))) ∧
    (∀ (sales : List SalesRow) (recipes : List RecipeRow)
        (tracked : List String), recipes ≠ [] → tracked ≠ [] →
      ∀ row ∈ calculate_ingredient_consumption sales recipes tracked,
        row.2.map Prod.fst = tracked) ∧
    (∀ (q : ℚ) (sales : List SalesRow),
      ∀ row ∈ calculate_ingredient_consumption sales [ramenRecipe q]
          ["Ramen"],
        lookupV "Ramen" row.2 =
          q * (((sales.filter (fun s => s.month = row.1)).filter
            (fun s => saleResolves [ramenRecipe q] s)).map
              (fun s => s.count)).sum) := by
  refine ⟨?_, ?_, ?_⟩
  · intro sales recipes tracked hr ht
    cases sales with
    | nil => rfl
    | cons s ss =>
      have hre : recipes.isEmpty = false := by
        simp [List.isEmpty_iff, hr]
      have hte : tracked.isEmpty = false := by
        simp [List.isEmpty_iff, ht]
      simp only [calculate_ingredient_consumption, List.isEmpty_cons,
        Bool.false_or, hre, Bool.false_eq_true, if_false, hte,
        List.map_map]
      exact List.map_id' _
  · intro sales recipes tracked hr ht row hrow
    cases sales with
    | nil => cases hrow
    | cons s ss =>
      have hre : recipes.isEmpty = false := by
        simp [List.isEmpty_iff, hr]
      have hte : tracked.isEmpty = false := by
        simp [List.isEmpty_iff, ht]
      simp only [calculate_ingredient_consumption, List.isEmpty_cons,
        Bool.false_or, hre, Bool.false_eq_true, if_false, hte] at hrow
      rcases List.mem_map.mp hrow with ⟨m, _, heq⟩
      subst heq
      rw [foldl_processSale_keys, List.map_map]
      exact List.map_id' _
  · intro q sales row hrow
    cases sales with
    | nil => cases hrow
    | cons s ss =>
      simp only [calculate_ingredient_consumption, List.isEmpty_cons,
        Bool.false_or] at hrow
      rw [if_neg (by simp), if_neg (by simp)] at hrow
      rcases List.mem_map.mp hrow with ⟨m, _, heq⟩
      subst heq
      have hfold := foldl_processSale_ramen q
        ((s :: ss).filter (fun x => x.month = m)) 0
      simp only [List.map_cons, List.map_nil] at hfold ⊢
      rw [hfold]
      simp [lookupV, List.find?]

/-- C9 witness: the spec's own scenario — one `Ramen Bowl` recipe worth 2
per dish, one `May` sale of `Ramen Bowl Special` × 30 (which resolves by
first-token case-insensitive containment): the output has exactly month
`May`, and its `Ramen` entry is `2 × 30 = 60`. -/
theorem calculate_ingredient_consumption_aligned_witness :
    (([ramenRecipe 2] : List RecipeRow) ≠ [] ∧
      (["Ramen"] : List String) ≠ []) ∧
    (calculate_ingredient_consumption
        [⟨"May", some "Ramen Bowl Special", 30⟩] [ramenRecipe 2]
        ["Ramen"]).map Prod.fst = ["May"] ∧
    lookupV "Ramen" [("Ramen", (60 : ℚ))] =
      2 * (((([⟨"May", some "Ramen Bowl Special", 30⟩] :
          List SalesRow).filter (fun s => s.month = "May")).filter
        (fun s => saleResolves [ramenRecipe 2] s)).map
          (fun s => s.count)).sum := by
  have h := calculate_ingredient_consumption_aligned
  have hA := h.1 [⟨"May", some "Ramen Bowl Special", 30⟩] [ramenRecipe 2]
    ["Ramen"] (by simp) (by simp)
  have hres : saleResolves [ramenRecipe 2]
      (⟨"May", some "Ramen Bowl Special", 30⟩ : SalesRow) = true := by
    decide
  have hmonth : ([⟨"May", some "Ramen Bowl Special", 30⟩] :
      List SalesRow).filter (fun x => x.month = "May") =
      [⟨"May", some "Ramen Bowl Special", 30⟩] := by
    simp
  have heval : calculate_ingredient_consumption
      [⟨"May", some "Ramen Bowl Special", 30⟩] [ramenRecipe 2] ["Ramen"] =
      [("May", [("Ramen", (60 : ℚ))])] := by
    simp only [calculate_ingredient_consumption, List.isEmpty_cons,
      List.isEmpty_nil, Bool.or_false, Bool.false_eq_true, if_false,
      List.map_cons, List.map_nil, dedupFirst, List.filter_nil]
    rw [hmonth, foldl_processSale_ramen]
    rw [List.filter_cons, hres]
    norm_num
  have hrow : (("May", [("Ramen", (60 : ℚ))]) :
      String × List (String × ℚ)) ∈ calculate_ingredient_consumption
        [⟨"May", some "Ramen Bowl Special", 30⟩] [ramenRecipe 2]
        ["Ramen"] := by
    rw [heval]
    exact List.mem_singleton.mpr rfl
  refine ⟨⟨by simp, by simp⟩, ?_, ?_⟩
  · rw [heval] at hA ⊢
    rfl
  · exact h.2.2 2 [⟨"May", some "Ramen Bowl Special", 30⟩] _ hrow

end MaiShenYun
